import Mathlib

/-
Verification of the Orion server composition module
(src/src/prefect/orion/api/server.py) against its specification.

The module is embedded shallowly: pure data and the control flow of each
function are translated into Lean definitions, mutable state (the dependency
list, the application cache, app.state.services) is passed explicitly, and
Python exceptions become Except values.  Dictionaries keyed by strings or by
settings values are modelled as association lists whose keys are unique, with
lookup returning the first binding; Python dict reassignment after pop is a
removal followed by an insertion at the end.
-/

set_option autoImplicit false

namespace Orion

/-- One route entry: an HTTP method together with the sub-path inside a
router.  These are the elements of the sets compared by the override
validation in create_orion_api (server.py lines 188-196). -/
structure MethodPath where
  method : String
  path : String
deriving DecidableEq, Repr

/-- A FastAPI router as this module sees it: its declared path policy string
(field routePfx models router.prefix) and its list of routes.  The internals
of fastapi.APIRouter are external to the module; only these two observations
are used by server.py. -/
structure APIRouter where
  routePfx : String
  routes : List MethodPath
deriving DecidableEq, Repr

/-- Modelled from the spec: method_paths_from_routes
(prefect.orion.utilities.server, not under src/) returns the set of
(HTTP method, sub-path) entries of a list of routes. -/
def method_paths_from_routes (routes : List MethodPath) : Finset MethodPath :=
  routes.toFinset

/-- The routers dictionary built by create_orion_api (line 161):
an association list from a path policy string to its router, keys unique. -/
abbrev Registry := List (String × APIRouter)

/-- Dictionary key lookup (the membership test and indexing on the routers
dict): the first binding for the key, if any. -/
def lookupKey : Registry → String → Option APIRouter
  | [], _ => none
  | e :: rest, p => if e.1 = p then some e.2 else lookupKey rest p

/-- routers.pop(p) (line 174): remove the binding for the key. -/
def eraseKey : Registry → String → Registry
  | [], _ => []
  | e :: rest, p => if e.1 = p then eraseKey rest p else e :: eraseKey rest p

/-- The exceptions raised by the override loop of create_orion_api:
KeyError for a key absent from the routers dict (line 169), ValueError when
the replacement declares a different path policy string (line 183), and
ValueError carrying the set difference of entries when the replacement loses
entries of the original router (line 191). -/
inductive OverrideError where
  | unknownKey (p : String)
  | differentPfx (key declared : String)
  | missingPaths (key : String) (missing : Finset MethodPath)
deriving DecidableEq

/-- One iteration of the override loop of create_orion_api
(server.py lines 164-196): check membership, pop the existing router, drop it
when the override value is None, otherwise check the declared path policy
string and the subset condition and reinsert the replacement (dict
reassignment after pop appends at the end of the dict order). -/
def applyOverride1 (routers : Registry) (p : String) (ov : Option APIRouter) :
    Except OverrideError Registry :=
  match lookupKey routers p with
  | none => Except.error (OverrideError.unknownKey p)
  | some existing_router =>
    let routers' := eraseKey routers p
    match ov with
    | none => Except.ok routers'
    | some router =>
      if p ≠ router.routePfx then
        Except.error (OverrideError.differentPfx p router.routePfx)
      else
        if ¬ method_paths_from_routes existing_router.routes ⊆
            method_paths_from_routes router.routes then
          Except.error (OverrideError.missingPaths p
            (method_paths_from_routes existing_router.routes \
              method_paths_from_routes router.routes))
        else
          Except.ok (routers' ++ [(p, router)])

/-- The whole override loop (lines 163-196): iterate the entries of the
router_overrides mapping in order; a raised exception aborts the call. -/
def applyOverrides : Registry → List (String × Option APIRouter) →
    Except OverrideError Registry
  | routers, [] => Except.ok routers
  | routers, (p, ov) :: rest =>
    match applyOverride1 routers p ov with
    | Except.error e => Except.error e
    | Except.ok routers' => applyOverrides routers' rest

/-- The routers included into the assembled api app after the override loop
(lines 198-199): routers.values(). -/
def includedRouters (routers : Registry) : List APIRouter :=
  routers.map Prod.snd

/-- The routers dict built from the default router tuple
(line 161, assuming the registry invariant of unique path policy strings). -/
def mkRegistry (defaults : List APIRouter) : Registry :=
  defaults.map (fun r => (r.routePfx, r))

/-- The entry set of the original router registered for a key. -/
def origPaths (routers : Registry) (p : String) : Finset MethodPath :=
  match lookupKey routers p with
  | some r => method_paths_from_routes r.routes
  | none => ∅

/-- A global dependency added to every included router.  The item appended by
create_orion_api is Depends(version_checker); dependencies supplied by the
caller are opaque. -/
inductive Dep where
  | versionCheckerDep
  | callerDep (n : Nat)
deriving DecidableEq, Repr

/-- The heap of Python list objects that the dependencies argument of
create_orion_api may reference: a list object is addressed by a natural
number and holds a list of dependency items. -/
abbrev DepStore := List (List Dep)

/-- Read a list object out of the heap. -/
def depRead (s : DepStore) (r : Nat) : List Dep :=
  s.getD r []

/-- The dependency-handling step of create_orion_api (server.py lines
155-159).  None allocates a fresh one-element list; a caller-supplied
reference r gets dependencies.append(Depends(version_checker)) executed on
the very object r points to, which the caller still references after the
call.  The result is the reference used together with the heap after the
call. -/
def resolveDependencies : Option Nat → DepStore → Nat × DepStore
  | none, s => (s.length, s ++ [[Dep.versionCheckerDep]])
  | some r, s => (r, s.set r (s.getD r [] ++ [Dep.versionCheckerDep]))

/-- The service classes instantiated by start_services; name gives the
logging name of each. -/
inductive ServiceKind where
  | scheduler
  | markLateRuns
  | telemetry
  | flowRunNotifications
deriving DecidableEq, Repr

/-- The four settings flags consulted by start_services
(server.py lines 313-327). -/
structure ServiceFlags where
  schedulerEnabled : Bool
  lateRunsEnabled : Bool
  analyticsEnabled : Bool
  flowRunNotificationsEnabled : Bool
deriving DecidableEq, Repr

/-- Observable actions of the service supervisor closures, recorded in
order.  taskCreated is loop.create_task(service.start()), logScheduled is the
info log line, doneCallbackAdded is task.add_done_callback, stopRequested is
an awaited service.stop(), taskAwaited would be an awaited completion of a
monitored task. -/
inductive Event where
  | taskCreated (s : ServiceKind)
  | logScheduled (s : ServiceKind)
  | doneCallbackAdded (s : ServiceKind)
  | stopRequested (s : ServiceKind)
  | taskAwaited (s : ServiceKind)
deriving DecidableEq, Repr

/-- The list of service instances built by start_services from the settings
flags, in the append order of server.py lines 311-327. -/
def serviceInstances (flags : ServiceFlags) : List ServiceKind :=
  (if flags.schedulerEnabled then [ServiceKind.scheduler] else []) ++
  (if flags.lateRunsEnabled then [ServiceKind.markLateRuns] else []) ++
  (if flags.analyticsEnabled then [ServiceKind.telemetry] else []) ++
  (if flags.flowRunNotificationsEnabled then [ServiceKind.flowRunNotifications]
    else [])

/-- start_services (server.py lines 304-337).  In ephemeral mode it records
app.state.services = None and returns without doing anything else.
Otherwise it builds app.state.services as the dict mapping each selected
service to the task created for it (tasks are numbered in creation order)
and, for each entry, logs the scheduling line and attaches the
on_service_exit done-callback.  Returns the recorded services value and the
trace of actions. -/
def startServices (ephemeral : Bool) (flags : ServiceFlags) :
    Option (List (ServiceKind × Nat)) × List Event :=
  if ephemeral then (none, [])
  else
    let svcs := (serviceInstances flags).enum.map (fun e => (e.2, e.1))
    (some svcs,
      svcs.map (fun e => Event.taskCreated e.1) ++
      svcs.flatMap (fun e => [Event.logScheduled e.1, Event.doneCallbackAdded e.1]))

/-- The Python exceptions surfacing in the modelled closures: the missing
attribute in the second gather of stop_services, and the sqlalchemy
duplicate-conflict fault caught by add_block_types. -/
inductive PyError where
  | attributeError
  | integrityError
deriving DecidableEq, Repr

/-- The expression task.stop() evaluated in the second gather of
stop_services (server.py line 345).  The values of app.state.services are the
asyncio.Task objects returned by loop.create_task; asyncio.Task exposes
cancel, result, done and add_done_callback but defines no stop method, so the
attribute access raises AttributeError and no awaiting of the task ever
happens. -/
def taskStopCall (_t : Nat) : Except PyError Event :=
  Except.error PyError.attributeError

/-- stop_services (server.py lines 339-349).  The truthiness test
`if app.state.services` skips everything when the recorded value is None or
an empty dict.  Otherwise the first gather awaits service.stop() for every
key of the dict; the second gather evaluates task.stop() for every value
inside a try whose except clause discards any exception.  Returns the trace
of actions performed. -/
def stopServices (services : Option (List (ServiceKind × Nat))) : List Event :=
  match services with
  | none => []
  | some svcs =>
    if svcs.isEmpty then []
    else
      let stopEvs := svcs.map (fun e => Event.stopRequested e.1)
      let secondPhase :=
        match svcs.mapM (fun e => taskStopCall e.2) with
        | Except.ok evs => evs
        | Except.error _ => []
      stopEvs ++ secondPhase

/-- Whether create_ui_app mounts the static single page application
(server.py lines 218-227): the static path must exist, the UI setting must be
enabled and the build must not be ephemeral. -/
structure UIEnv where
  staticPathExists : Bool
  uiEnabled : Bool
deriving DecidableEq, Repr

/-- The mount decision of create_ui_app. -/
def createUiAppMounts (env : UIEnv) (ephemeral : Bool) : Bool :=
  env.staticPathExists && env.uiEnabled && !ephemeral

/-- A settings value, the first half of the application cache key.  Only its
equality is consulted by create_app, so it is modelled as an opaque value
with decidable equality. -/
structure Settings where
  val : Nat
deriving DecidableEq, Repr

/-- The process-wide state surrounding create_app: APP_CACHE maps a
(settings, ephemeral) key to the identity of the stored application object,
buildCount counts the application objects constructed so far (identities are
0, 1, ... in construction order, so a fresh object always gets identity
buildCount), and stoppedServiceApps records the identities of applications
whose services have been stopped (create_app itself never stops any). -/
structure WorldState where
  appCache : List ((Settings × Bool) × Nat)
  buildCount : Nat
  stoppedServiceApps : List Nat
deriving DecidableEq, Repr

/-- APP_CACHE lookup: dictionary access on the cache. -/
def cacheLookup (c : List ((Settings × Bool) × Nat)) (k : Settings × Bool) :
    Option Nat :=
  match c with
  | [] => none
  | e :: rest => if e.1 = k then some e.2 else cacheLookup rest k

/-- APP_CACHE[key] = app: dictionary assignment, overwriting any existing
binding for the key. -/
def cacheInsert (c : List ((Settings × Bool) × Nat)) (k : Settings × Bool)
    (v : Nat) : List ((Settings × Bool) × Nat) :=
  match c with
  | [] => [(k, v)]
  | e :: rest => if e.1 = k then (k, v) :: rest else e :: cacheInsert rest k v

/-- create_app (server.py lines 235-427) as a state transformer on the
process-wide cache state.  The settings argument is the resolved settings
value (the None default pulls it from the context before the cache key is
formed).  On a cache hit with ignore_cache unset the stored object is
returned and nothing changes; otherwise a new application object is
constructed, stored under the key, and returned.  Nothing is ever done to the
previously stored object. -/
def create_app (settings : Settings) (ephemeral ignore_cache : Bool)
    (w : WorldState) : Nat × WorldState :=
  let cache_key := (settings, ephemeral)
  match cacheLookup w.appCache cache_key, ignore_cache with
  | some appId, false => (appId, w)
  | _, _ =>
    let newId := w.buildCount
    (newId,
      { appCache := cacheInsert w.appCache cache_key newId,
        buildCount := w.buildCount + 1,
        stoppedServiceApps := w.stoppedServiceApps })

/-- The faults recognized by the exception handlers installed on the api app
(server.py lines 373-382): a fastapi RequestValidationError carrying its
field errors and the request body, a sqlalchemy IntegrityError carrying its
low-level detail, an ObjectNotFoundError carrying its message, and any other
exception, matched by the Exception catch-all, carrying its low-level
detail. -/
inductive Fault where
  | requestValidation (errors : List String) (body : String)
  | integrity (detail : String)
  | objectNotFound (msg : String)
  | other (detail : String)
deriving DecidableEq, Repr

/-- A JSON response produced by one of the four handlers: the HTTP status
code together with the fields that may appear in the payload. -/
structure Response where
  statusCode : Nat
  exceptionMessage : Option String
  exceptionDetail : Option (List String)
  requestBody : Option String
  detail : Option String
deriving DecidableEq, Repr

/-- The fixed client message of validation_exception_handler. -/
def invalidRequestMsg : String := "Invalid request received."

/-- The fixed client message of integrity_exception_handler. -/
def integrityConflictMsg : String :=
  "Data integrity conflict. This usually means a unique or foreign key constraint was violated. See server logs for details."

/-- The fixed client message of custom_internal_exception_handler. -/
def internalServerErrorMsg : String := "Internal Server Error"

/-- validation_exception_handler (server.py lines 79-90): 422 with the fixed
message, the field errors and the request body. -/
def validation_exception_handler (errors : List String) (body : String) :
    Response :=
  { statusCode := 422,
    exceptionMessage := some invalidRequestMsg,
    exceptionDetail := some errors,
    requestBody := some body,
    detail := none }

/-- integrity_exception_handler (server.py lines 93-105): the exception is
logged server-side and the client receives 409 with only the fixed generic
message; nothing of the exception appears in the response. -/
def integrity_exception_handler (_detail : String) : Response :=
  { statusCode := 409,
    exceptionMessage := none,
    exceptionDetail := none,
    requestBody := none,
    detail := some integrityConflictMsg }

/-- custom_internal_exception_handler (server.py lines 108-114): the
exception is logged server-side and the client receives 500 with only the
fixed generic message. -/
def custom_internal_exception_handler (_detail : String) : Response :=
  { statusCode := 500,
    exceptionMessage := some internalServerErrorMsg,
    exceptionDetail := none,
    requestBody := none,
    detail := none }

/-- prefect_object_not_found_exception_handler (server.py lines 117-123):
404 with the message of the exception passed through. -/
def prefect_object_not_found_exception_handler (msg : String) : Response :=
  { statusCode := 404,
    exceptionMessage := some msg,
    exceptionDetail := none,
    requestBody := none,
    detail := none }

/-- The dispatch performed by the exception_handlers mapping installed by
create_app (server.py lines 373-382): each recognized exception class goes to
its handler and the Exception entry catches everything unclassified. -/
def handleFault : Fault → Response
  | Fault.requestValidation errs body => validation_exception_handler errs body
  | Fault.integrity d => integrity_exception_handler d
  | Fault.objectNotFound m => prefect_object_not_found_exception_handler m
  | Fault.other d => custom_internal_exception_handler d

/-- A statically declared capability descriptor (a block class of
BLOCK_REGISTRY): only its registration name matters here. -/
structure BlockDescriptor where
  name : String
deriving DecidableEq, Repr

/-- Modelled from the spec: create_block_type together with
create_block_schema (prefect.orion.models, not under src/) persist one
descriptor and fail with a sqlalchemy IntegrityError duplicate-conflict fault
when a descriptor of the same name is already registered and override is not
set.  The database is modelled as the list of registered names. -/
def create_block_type (db : List String) (override : Bool) (name : String) :
    Except PyError (List String) :=
  if name ∈ db then
    if override then Except.ok db else Except.error PyError.integrityError
  else
    Except.ok (db ++ [name])

/-- Observable actions of the add_block_types loop: a successful
registration, a duplicate fault swallowed by the except clause, or a line
written to the logger.  The except clause of the source is a bare pass, so
the loop as written never produces a logEmitted action. -/
inductive RegEvent where
  | registered (name : String)
  | duplicateSwallowed (name : String)
  | logEmitted (msg : String)
deriving DecidableEq, Repr

/-- Whether a registration action is a logger write. -/
def RegEvent.isLogEvent : RegEvent → Bool
  | RegEvent.logEmitted _ => true
  | _ => false

/-- The per-descriptor loop of add_block_types (server.py lines 281-302):
each descriptor is registered in its own transaction inside a try whose
except sa.exc.IntegrityError clause is pass, so a duplicate fault skips that
descriptor and the loop continues with the next one.  Returns the final
database together with the trace of actions. -/
def add_block_types : Bool → List BlockDescriptor → List String →
    List String × List RegEvent
  | _, [], db => (db, [])
  | override, b :: rest, db =>
    match create_block_type db override b.name with
    | Except.ok db' =>
      ((add_block_types override rest db').1,
        RegEvent.registered b.name :: (add_block_types override rest db').2)
    | Except.error _ =>
      ((add_block_types override rest db).1,
        RegEvent.duplicateSwallowed b.name :: (add_block_types override rest db).2)

/-
Concrete values used to evaluate the development on explicit inputs.
-/

/-- Example key used by concrete instances. -/
def adminKey : String := "/admin"

/-- Example router on the key, with two entries. -/
def adminRouter : APIRouter :=
  { routePfx := adminKey,
    routes := [{ method := "GET", path := "/" },
               { method := "POST", path := "/settings" }] }

/-- Example replacement keeping both entries and adding one. -/
def biggerAdminRouter : APIRouter :=
  { routePfx := adminKey,
    routes := [{ method := "GET", path := "/" },
               { method := "POST", path := "/settings" },
               { method := "DELETE", path := "/cache" }] }

/-- Example replacement losing one entry. -/
def smallerAdminRouter : APIRouter :=
  { routePfx := adminKey,
    routes := [{ method := "GET", path := "/" }] }

/-- Example registry holding one router. -/
def demoRegistry : Registry := [(adminKey, adminRouter)]

/-- A key absent from demoRegistry. -/
def ghostKey : String := "/ghost"

/-- Example settings value. -/
def demoSettings : Settings := { val := 0 }

/-- Example process state in which one application (identity 0) was already
built and cached for (demoSettings, false). -/
def demoWorld : WorldState :=
  { appCache := [((demoSettings, false), 0)],
    buildCount := 1,
    stoppedServiceApps := [] }

/-- Example heap holding one caller-owned dependency list at address 0. -/
def demoStore : DepStore := [[Dep.callerDep 0]]

/-- The settings flags with every service disabled. -/
def allOffFlags : ServiceFlags :=
  { schedulerEnabled := false, lateRunsEnabled := false,
    analyticsEnabled := false, flowRunNotificationsEnabled := false }

/-- Example descriptor names. -/
def nameA : String := "a"

/-- Example descriptor names. -/
def nameB : String := "b"

/-
Helper lemmas about the association-list operations.
-/

theorem lookup_eraseKey_self (l : Registry) (p : String) :
    lookupKey (eraseKey l p) p = none := by
  induction l with
  | nil => rfl
  | cons e rest ih =>
    by_cases h : e.1 = p
    · simp [eraseKey, h, ih]
    · simp [eraseKey, lookupKey, h, ih]

theorem lookup_eraseKey_ne (l : Registry) (p q : String) (h : p ≠ q) :
    lookupKey (eraseKey l q) p = lookupKey l p := by
  induction l with
  | nil => rfl
  | cons e rest ih =>
    simp only [eraseKey, lookupKey]
    by_cases he : e.1 = q
    · rw [if_pos he]
      have hne : ¬ e.1 = p := by
        rw [he]
        exact fun hh => h hh.symm
      rw [if_neg hne]
      exact ih
    · rw [if_neg he]
      by_cases hp : e.1 = p
      · simp only [lookupKey]
        rw [if_pos hp, if_pos hp]
      · simp only [lookupKey]
        rw [if_neg hp, if_neg hp]
        exact ih

theorem lookup_append_ne_single (l : Registry) (p q : String) (r : APIRouter)
    (h : p ≠ q) :
    lookupKey (l ++ [(q, r)]) p = lookupKey l p := by
  induction l with
  | nil =>
    have hq : q ≠ p := fun hh => h hh.symm
    simp [lookupKey, hq]
  | cons e rest ih =>
    by_cases hp : e.1 = p
    · simp [lookupKey, hp]
    · simp [lookupKey, hp, ih]

theorem lookup_append_none (l l₂ : Registry) (p : String)
    (h : lookupKey l p = none) :
    lookupKey (l ++ l₂) p = lookupKey l₂ p := by
  induction l with
  | nil => rfl
  | cons e rest ih =>
    by_cases hp : e.1 = p
    · simp [lookupKey, hp] at h
    · simp only [lookupKey, hp, if_false] at h
      simp [lookupKey, hp]
      exact ih h

theorem lookup_erase_snoc_self (l : Registry) (p : String) (r : APIRouter) :
    lookupKey (eraseKey l p ++ [(p, r)]) p = some r := by
  rw [lookup_append_none _ _ _ (lookup_eraseKey_self l p)]
  simp [lookupKey]

theorem lookup_mem_included (l : Registry) (p : String) (r : APIRouter)
    (h : lookupKey l p = some r) : r ∈ includedRouters l := by
  induction l with
  | nil => simp [lookupKey] at h
  | cons e rest ih =>
    by_cases hp : e.1 = p
    · simp [lookupKey, hp] at h
      simp [includedRouters, h]
    · simp only [lookupKey, hp, if_false] at h
      simp [includedRouters] at ih ⊢
      exact Or.inr (ih h)

theorem origPaths_eq (routers : Registry) (p : String) (ex : APIRouter)
    (h : lookupKey routers p = some ex) :
    origPaths routers p = method_paths_from_routes ex.routes := by
  unfold origPaths
  rw [h]

theorem origPaths_congr (r₁ r₂ : Registry) (p : String)
    (h : lookupKey r₁ p = lookupKey r₂ p) :
    origPaths r₁ p = origPaths r₂ p := by
  unfold origPaths
  rw [h]

/-
Computation lemmas for the branches of one iteration of the override loop.
-/

theorem applyOverride1_unknown (routers : Registry) (p : String)
    (v : Option APIRouter) (h : lookupKey routers p = none) :
    applyOverride1 routers p v = Except.error (OverrideError.unknownKey p) := by
  unfold applyOverride1
  rw [h]

theorem applyOverride1_none_ok (routers : Registry) (p : String)
    (ex : APIRouter) (h : lookupKey routers p = some ex) :
    applyOverride1 routers p none = Except.ok (eraseKey routers p) := by
  unfold applyOverride1
  rw [h]

theorem applyOverride1_some_ok (routers : Registry) (p : String)
    (ex rt : APIRouter) (h : lookupKey routers p = some ex)
    (hp : rt.routePfx = p)
    (hs : method_paths_from_routes ex.routes ⊆
      method_paths_from_routes rt.routes) :
    applyOverride1 routers p (some rt) =
      Except.ok (eraseKey routers p ++ [(p, rt)]) := by
  unfold applyOverride1
  rw [h]
  simp [hp, hs]

theorem applyOverride1_some_err (routers : Registry) (p : String)
    (ex rt : APIRouter) (h : lookupKey routers p = some ex)
    (hp : rt.routePfx = p)
    (hs : ¬ method_paths_from_routes ex.routes ⊆
      method_paths_from_routes rt.routes) :
    applyOverride1 routers p (some rt) =
      Except.error (OverrideError.missingPaths p
        (method_paths_from_routes ex.routes \
          method_paths_from_routes rt.routes)) := by
  unfold applyOverride1
  rw [h]
  simp [hp, hs]

theorem applyOverride1_ok_lookup_ne (routers routers' : Registry) (q : String)
    (v : Option APIRouter) (p : String) (hne : p ≠ q)
    (h : applyOverride1 routers q v = Except.ok routers') :
    lookupKey routers' p = lookupKey routers p := by
  cases hl : lookupKey routers q with
  | none =>
    rw [applyOverride1_unknown routers q v hl] at h
    exact absurd h (by simp)
  | some ex =>
    cases v with
    | none =>
      rw [applyOverride1_none_ok routers q ex hl] at h
      have hr : routers' = eraseKey routers q := by
        injection h with h1
        exact h1.symm
      subst hr
      exact lookup_eraseKey_ne routers p q hne
    | some rt =>
      by_cases hpq : rt.routePfx = q
      · by_cases hs : method_paths_from_routes ex.routes ⊆
            method_paths_from_routes rt.routes
        · rw [applyOverride1_some_ok routers q ex rt hl hpq hs] at h
          have hr : routers' = eraseKey routers q ++ [(q, rt)] := by
            injection h with h1
            exact h1.symm
          subst hr
          rw [lookup_append_ne_single _ _ _ _ hne]
          exact lookup_eraseKey_ne routers p q hne
        · rw [applyOverride1_some_err routers q ex rt hl hpq hs] at h
          exact absurd h (by simp)
      · have : applyOverride1 routers q (some rt) =
            Except.error (OverrideError.differentPfx q rt.routePfx) := by
          unfold applyOverride1
          rw [hl]
          have hneq : q ≠ rt.routePfx := fun hh => hpq hh.symm
          simp [hneq]
        rw [this] at h
        exact absurd h (by simp)

theorem applyOverride1_ok_lookup_none (routers routers' : Registry)
    (q : String) (v : Option APIRouter) (p : String)
    (h : applyOverride1 routers q v = Except.ok routers')
    (hp : lookupKey routers p = none) :
    lookupKey routers' p = none := by
  by_cases hqp : p = q
  · subst hqp
    rw [applyOverride1_unknown routers p v hp] at h
    exact absurd h (by simp)
  · rw [applyOverride1_ok_lookup_ne routers routers' q v p hqp h]
    exact hp

theorem applyOverrides_cons (routers : Registry) (p : String)
    (ov : Option APIRouter) (rest : List (String × Option APIRouter)) :
    applyOverrides routers ((p, ov) :: rest) =
      match applyOverride1 routers p ov with
      | Except.error e => Except.error e
      | Except.ok routers' => applyOverrides routers' rest := rfl

theorem applyOverrides_cons_ok (routers routers' : Registry) (p : String)
    (ov : Option APIRouter) (rest : List (String × Option APIRouter))
    (h : applyOverride1 routers p ov = Except.ok routers') :
    applyOverrides routers ((p, ov) :: rest) = applyOverrides routers' rest := by
  rw [applyOverrides_cons, h]

theorem applyOverrides_cons_err (routers : Registry) (p : String)
    (ov : Option APIRouter) (rest : List (String × Option APIRouter))
    (e : OverrideError) (h : applyOverride1 routers p ov = Except.error e) :
    applyOverrides routers ((p, ov) :: rest) = Except.error e := by
  rw [applyOverrides_cons, h]

theorem applyOverrides_ok_lookup_notin
    (ovs : List (String × Option APIRouter)) :
    ∀ (routers res : Registry) (p : String),
    (∀ e ∈ ovs, e.1 ≠ p) →
    applyOverrides routers ovs = Except.ok res →
    lookupKey res p = lookupKey routers p := by
  induction ovs with
  | nil =>
    intro routers res p _ h
    injection h with h1
    rw [h1]
  | cons e rest ih =>
    intro routers res p hne h
    obtain ⟨q, v⟩ := e
    cases ha : applyOverride1 routers q v with
    | error err =>
      rw [applyOverrides_cons_err routers q v rest err ha] at h
      exact absurd h (by simp)
    | ok routers' =>
      rw [applyOverrides_cons_ok routers routers' q v rest ha] at h
      have h1 := ih routers' res p
        (fun x hx => hne x (List.mem_cons_of_mem _ hx)) h
      rw [h1]
      exact applyOverride1_ok_lookup_ne routers routers' q v p
        (fun hh => hne (q, v) (List.mem_cons_self _ _) hh.symm) ha

theorem applyOverride1_ok_lookup_self (routers routers' : Registry)
    (q : String) (v : Option APIRouter)
    (h : applyOverride1 routers q v = Except.ok routers') :
    lookupKey routers' q = v := by
  cases hl : lookupKey routers q with
  | none =>
    rw [applyOverride1_unknown routers q v hl] at h
    exact absurd h (by simp)
  | some ex =>
    cases v with
    | none =>
      rw [applyOverride1_none_ok routers q ex hl] at h
      injection h with h1
      rw [← h1]
      exact lookup_eraseKey_self routers q
    | some rt =>
      by_cases hpq : rt.routePfx = q
      · by_cases hs : method_paths_from_routes ex.routes ⊆
            method_paths_from_routes rt.routes
        · rw [applyOverride1_some_ok routers q ex rt hl hpq hs] at h
          injection h with h1
          rw [← h1]
          exact lookup_erase_snoc_self routers q rt
        · rw [applyOverride1_some_err routers q ex rt hl hpq hs] at h
          exact absurd h (by simp)
      · have herr : applyOverride1 routers q (some rt) =
            Except.error (OverrideError.differentPfx q rt.routePfx) := by
          unfold applyOverride1
          rw [hl]
          have hneq : q ≠ rt.routePfx := fun hh => hpq hh.symm
          simp [hneq]
        rw [herr] at h
        exact absurd h (by simp)

theorem applyOverrides_unknown_not_ok
    (ovs : List (String × Option APIRouter)) :
    ∀ (routers : Registry) (p : String) (v : Option APIRouter),
    (p, v) ∈ ovs →
    lookupKey routers p = none →
    ∀ res, applyOverrides routers ovs ≠ Except.ok res := by
  induction ovs with
  | nil =>
    intro routers p v hin
    exact absurd hin (List.not_mem_nil _)
  | cons e rest ih =>
    intro routers p v hin hunk res
    obtain ⟨q, w⟩ := e
    cases ha : applyOverride1 routers q w with
    | error err =>
      rw [applyOverrides_cons_err routers q w rest err ha]
      simp
    | ok routers' =>
      rw [applyOverrides_cons_ok routers routers' q w rest ha]
      rcases List.mem_cons.mp hin with hhd | htl
      · have hq : q = p := (Prod.mk.injEq _ _ _ _).mp hhd.symm |>.1
        subst hq
        rw [applyOverride1_unknown routers q w hunk] at ha
        exact absurd ha (by simp)
      · exact ih routers' p v htl
          (applyOverride1_ok_lookup_none routers routers' q w p ha hunk) res

theorem applyOverrides_success (ovs : List (String × Option APIRouter)) :
    ∀ (routers : Registry),
    (ovs.map Prod.fst).Nodup →
    (∀ e ∈ ovs, (lookupKey routers e.1).isSome = true) →
    (∀ p rt, (p, some rt) ∈ ovs → rt.routePfx = p ∧
      origPaths routers p ⊆ method_paths_from_routes rt.routes) →
    ∃ res, applyOverrides routers ovs = Except.ok res ∧
      ∀ p v, (p, v) ∈ ovs → lookupKey res p = v := by
  induction ovs with
  | nil =>
    intro routers _ _ _
    exact ⟨routers, rfl, fun p v hin => absurd hin (List.not_mem_nil _)⟩
  | cons e rest ih =>
    intro routers hnd hmem hgood
    obtain ⟨q, w⟩ := e
    have hq : (lookupKey routers q).isSome = true :=
      hmem (q, w) (List.mem_cons_self _ _)
    obtain ⟨ex, hl⟩ := Option.isSome_iff_exists.mp hq
    have hnotin : q ∉ rest.map Prod.fst := by
      simp only [List.map_cons, List.nodup_cons] at hnd
      exact hnd.1
    have hndrest : (rest.map Prod.fst).Nodup := by
      simp only [List.map_cons, List.nodup_cons] at hnd
      exact hnd.2
    have hkeyne : ∀ x ∈ rest, x.1 ≠ q := by
      intro x hx hxq
      exact hnotin (hxq ▸ List.mem_map_of_mem Prod.fst hx)
    have hstep : ∃ routers', applyOverride1 routers q w = Except.ok routers' := by
      cases w with
      | none => exact ⟨_, applyOverride1_none_ok routers q ex hl⟩
      | some rt =>
        obtain ⟨hp, hsub⟩ := hgood q rt (List.mem_cons_self _ _)
        rw [origPaths_eq routers q ex hl] at hsub
        exact ⟨_, applyOverride1_some_ok routers q ex rt hl hp hsub⟩
    obtain ⟨routers', hstep⟩ := hstep
    have hpres : ∀ x ∈ rest, lookupKey routers' x.1 = lookupKey routers x.1 := by
      intro x hx
      exact applyOverride1_ok_lookup_ne routers routers' q w x.1 (hkeyne x hx) hstep
    have hmem' : ∀ x ∈ rest, (lookupKey routers' x.1).isSome = true := by
      intro x hx
      rw [hpres x hx]
      exact hmem x (List.mem_cons_of_mem _ hx)
    have hgood' : ∀ p rt, (p, some rt) ∈ rest → rt.routePfx = p ∧
        origPaths routers' p ⊆ method_paths_from_routes rt.routes := by
      intro p rt hin
      have hg := hgood p rt (List.mem_cons_of_mem _ hin)
      rw [origPaths_congr routers' routers p (hpres (p, some rt) hin)]
      exact hg
    obtain ⟨res, hres, hlook⟩ := ih routers' hndrest hmem' hgood'
    refine ⟨res, ?_, ?_⟩
    · rw [applyOverrides_cons_ok routers routers' q w rest hstep]
      exact hres
    · intro p v hin
      rcases List.mem_cons.mp hin with hhd | htl
      · simp only [Prod.mk.injEq] at hhd
        obtain ⟨rfl, rfl⟩ := hhd
        rw [applyOverrides_ok_lookup_notin rest routers' res p hkeyne hres]
        exact applyOverride1_ok_lookup_self routers routers' p v hstep
      · exact hlook p v htl

theorem applyOverrides_regression (ovs : List (String × Option APIRouter)) :
    ∀ (routers : Registry),
    (ovs.map Prod.fst).Nodup →
    (∀ e ∈ ovs, (lookupKey routers e.1).isSome = true) →
    (∀ p rt, (p, some rt) ∈ ovs → rt.routePfx = p) →
    (∃ p rt, (p, some rt) ∈ ovs ∧
      ¬ origPaths routers p ⊆ method_paths_from_routes rt.routes) →
    ∃ p' rt', (p', some rt') ∈ ovs ∧
      (origPaths routers p' \ method_paths_from_routes rt'.routes).Nonempty ∧
      applyOverrides routers ovs =
        Except.error (OverrideError.missingPaths p'
          (origPaths routers p' \ method_paths_from_routes rt'.routes)) := by
  induction ovs with
  | nil =>
    intro routers _ _ _ hex
    obtain ⟨p, rt, hin, _⟩ := hex
    exact absurd hin (List.not_mem_nil _)
  | cons e rest ih =>
    intro routers hnd hmem hpfx hex
    obtain ⟨q, w⟩ := e
    have hq : (lookupKey routers q).isSome = true :=
      hmem (q, w) (List.mem_cons_self _ _)
    obtain ⟨ex, hl⟩ := Option.isSome_iff_exists.mp hq
    have hnotin : q ∉ rest.map Prod.fst := by
      simp only [List.map_cons, List.nodup_cons] at hnd
      exact hnd.1
    have hndrest : (rest.map Prod.fst).Nodup := by
      simp only [List.map_cons, List.nodup_cons] at hnd
      exact hnd.2
    have hkeyne : ∀ x ∈ rest, x.1 ≠ q := by
      intro x hx hxq
      exact hnotin (hxq ▸ List.mem_map_of_mem Prod.fst hx)
    by_cases hheadbad : ∃ rt0, w = some rt0 ∧
        ¬ origPaths routers q ⊆ method_paths_from_routes rt0.routes
    · obtain ⟨rt0, rfl, hbad⟩ := hheadbad
      have hp := hpfx q rt0 (List.mem_cons_self _ _)
      have hsub := hbad
      rw [origPaths_eq routers q ex hl] at hsub
      have hstep := applyOverride1_some_err routers q ex rt0 hl hp hsub
      refine ⟨q, rt0, List.mem_cons_self _ _, Finset.sdiff_nonempty.mpr hbad, ?_⟩
      rw [applyOverrides_cons_err routers q (some rt0) rest _ hstep]
      rw [origPaths_eq routers q ex hl]
    · have hstep : ∃ routers', applyOverride1 routers q w = Except.ok routers' := by
        cases w with
        | none => exact ⟨_, applyOverride1_none_ok routers q ex hl⟩
        | some rt0 =>
          have hp := hpfx q rt0 (List.mem_cons_self _ _)
          have hsub : origPaths routers q ⊆ method_paths_from_routes rt0.routes := by
            by_contra hc
            exact hheadbad ⟨rt0, rfl, hc⟩
          rw [origPaths_eq routers q ex hl] at hsub
          exact ⟨_, applyOverride1_some_ok routers q ex rt0 hl hp hsub⟩
      obtain ⟨routers', hstep⟩ := hstep
      have hpres : ∀ x ∈ rest, lookupKey routers' x.1 = lookupKey routers x.1 := by
        intro x hx
        exact applyOverride1_ok_lookup_ne routers routers' q w x.1 (hkeyne x hx) hstep
      have hmem' : ∀ x ∈ rest, (lookupKey routers' x.1).isSome = true := by
        intro x hx
        rw [hpres x hx]
        exact hmem x (List.mem_cons_of_mem _ hx)
      have hpfx' : ∀ p rt, (p, some rt) ∈ rest → rt.routePfx = p :=
        fun p rt hin => hpfx p rt (List.mem_cons_of_mem _ hin)
      have hex' : ∃ p rt, (p, some rt) ∈ rest ∧
          ¬ origPaths routers' p ⊆ method_paths_from_routes rt.routes := by
        obtain ⟨p, rt, hin, hbadp⟩ := hex
        rcases List.mem_cons.mp hin with hhd | htl
        · simp only [Prod.mk.injEq] at hhd
          obtain ⟨rfl, rfl⟩ := hhd
          exact absurd ⟨rt, rfl, hbadp⟩ hheadbad
        · refine ⟨p, rt, htl, ?_⟩
          rw [origPaths_congr routers' routers p (hpres (p, some rt) htl)]
          exact hbadp
      obtain ⟨p', rt', hin', hne', heq'⟩ := ih routers' hndrest hmem' hpfx' hex'
      have hco : origPaths routers' p' = origPaths routers p' :=
        origPaths_congr routers' routers p' (hpres (p', some rt') hin')
      refine ⟨p', rt', List.mem_cons_of_mem _ hin', ?_, ?_⟩
      · rw [← hco]
        exact hne'
      · rw [applyOverrides_cons_ok routers routers' q w rest hstep, ← hco]
        exact heq'

/-
Helper lemmas for the application cache, the dependency heap and the block
registration loop.
-/

theorem cacheLookup_insert_self (c : List ((Settings × Bool) × Nat))
    (k : Settings × Bool) (v : Nat) :
    cacheLookup (cacheInsert c k v) k = some v := by
  induction c with
  | nil => simp [cacheInsert, cacheLookup]
  | cons e rest ih =>
    by_cases h : e.1 = k
    · simp [cacheInsert, cacheLookup, h]
    · simp only [cacheInsert, h, if_false]
      simp only [cacheLookup, h, if_false]
      exact ih

theorem create_app_hit (s : Settings) (eph : Bool) (w : WorldState)
    (appId : Nat) (h : cacheLookup w.appCache (s, eph) = some appId) :
    create_app s eph false w = (appId, w) := by
  simp only [create_app]
  rw [h]

theorem create_app_build_of_none (s : Settings) (eph ic : Bool)
    (w : WorldState) (h : cacheLookup w.appCache (s, eph) = none) :
    create_app s eph ic w =
      (w.buildCount,
        { appCache := cacheInsert w.appCache (s, eph) w.buildCount,
          buildCount := w.buildCount + 1,
          stoppedServiceApps := w.stoppedServiceApps }) := by
  simp only [create_app]
  rw [h]

theorem create_app_build_of_true (s : Settings) (eph : Bool)
    (w : WorldState) :
    create_app s eph true w =
      (w.buildCount,
        { appCache := cacheInsert w.appCache (s, eph) w.buildCount,
          buildCount := w.buildCount + 1,
          stoppedServiceApps := w.stoppedServiceApps }) := by
  simp only [create_app]
  cases h : cacheLookup w.appCache (s, eph) with
  | none => rfl
  | some appId => rfl

theorem depRead_set_self (s : DepStore) (r : Nat) (v : List Dep)
    (h : r < s.length) :
    depRead (s.set r v) r = v := by
  unfold depRead
  induction s generalizing r with
  | nil => simp at h
  | cons a t ih =>
    cases r with
    | zero => rfl
    | succ n =>
      simp only [List.set, List.getD, List.get?]
      have hn : n < t.length := by
        simp only [List.length_cons] at h
        omega
      exact ih n hn

theorem create_block_type_mono (db db' : List String) (o : Bool) (n x : String)
    (hx : x ∈ db) (h : create_block_type db o n = Except.ok db') : x ∈ db' := by
  unfold create_block_type at h
  by_cases hm : n ∈ db
  · rw [if_pos hm] at h
    cases o with
    | false => simp at h
    | true =>
      simp only [if_true] at h
      injection h with h1
      rw [← h1]
      exact hx
  · rw [if_neg hm] at h
    injection h with h1
    rw [← h1]
    exact List.mem_append_left _ hx

theorem create_block_type_self (db db' : List String) (o : Bool) (n : String)
    (h : create_block_type db o n = Except.ok db') : n ∈ db' := by
  unfold create_block_type at h
  by_cases hm : n ∈ db
  · rw [if_pos hm] at h
    cases o with
    | false => simp at h
    | true =>
      simp only [if_true] at h
      injection h with h1
      rw [← h1]
      exact hm
  · rw [if_neg hm] at h
    injection h with h1
    rw [← h1]
    exact List.mem_append_right _ (List.mem_singleton_self n)

theorem create_block_type_err_mem (db : List String) (n : String)
    (e : PyError) (h : create_block_type db false n = Except.error e) :
    n ∈ db := by
  unfold create_block_type at h
  by_cases hm : n ∈ db
  · exact hm
  · rw [if_neg hm] at h
    exact absurd h (by simp)

theorem add_block_types_cons (o : Bool) (b : BlockDescriptor)
    (rest : List BlockDescriptor) (db : List String) :
    add_block_types o (b :: rest) db =
      match create_block_type db o b.name with
      | Except.ok db' =>
        ((add_block_types o rest db').1,
          RegEvent.registered b.name :: (add_block_types o rest db').2)
      | Except.error _ =>
        ((add_block_types o rest db).1,
          RegEvent.duplicateSwallowed b.name ::
            (add_block_types o rest db).2) := rfl

theorem add_block_types_cons_ok (o : Bool) (b : BlockDescriptor)
    (rest : List BlockDescriptor) (db db' : List String)
    (h : create_block_type db o b.name = Except.ok db') :
    add_block_types o (b :: rest) db =
      ((add_block_types o rest db').1,
        RegEvent.registered b.name :: (add_block_types o rest db').2) := by
  rw [add_block_types_cons, h]

theorem add_block_types_cons_err (o : Bool) (b : BlockDescriptor)
    (rest : List BlockDescriptor) (db : List String) (e : PyError)
    (h : create_block_type db o b.name = Except.error e) :
    add_block_types o (b :: rest) db =
      ((add_block_types o rest db).1,
        RegEvent.duplicateSwallowed b.name :: (add_block_types o rest db).2) := by
  rw [add_block_types_cons, h]

theorem add_block_types_mono (o : Bool) (blocks : List BlockDescriptor) :
    ∀ (db : List String) (x : String), x ∈ db →
    x ∈ (add_block_types o blocks db).1 := by
  induction blocks with
  | nil =>
    intro db x hx
    exact hx
  | cons b rest ih =>
    intro db x hx
    cases hc : create_block_type db o b.name with
    | ok db' =>
      rw [add_block_types_cons_ok o b rest db db' hc]
      exact ih db' x (create_block_type_mono db db' o b.name x hx hc)
    | error e =>
      rw [add_block_types_cons_err o b rest db e hc]
      exact ih db x hx

/-
The claims.
-/

/-- C1: over any registry and any override map whose entries name known keys
with matching declared path policy strings, if some replacement loses at
least one entry of the original router then applyOverrides fails with the
missing-paths fault carrying exactly the set difference of the entries of
the original router minus the entries of the replacement, and if every
replacement keeps all entries of its original then applyOverrides succeeds
and the resulting registry serves the replacement for each overridden
key. -/
theorem override_subset_validation (routers : Registry)
    (ovs : List (String × Option APIRouter))
    (hnd : (ovs.map Prod.fst).Nodup)
    (hmem : ∀ e ∈ ovs, (lookupKey routers e.1).isSome = true)
    (hpfx : ∀ p rt, (p, some rt) ∈ ovs → rt.routePfx = p) :
    ((∃ p rt, (p, some rt) ∈ ovs ∧
        ¬ origPaths routers p ⊆ method_paths_from_routes rt.routes) →
      ∃ p' rt', (p', some rt') ∈ ovs ∧
        (origPaths routers p' \ method_paths_from_routes rt'.routes).Nonempty ∧
        applyOverrides routers ovs =
          Except.error (OverrideError.missingPaths p'
            (origPaths routers p' \ method_paths_from_routes rt'.routes))) ∧
    ((∀ p rt, (p, some rt) ∈ ovs →
        origPaths routers p ⊆ method_paths_from_routes rt.routes) →
      ∃ res, applyOverrides routers ovs = Except.ok res ∧
        ∀ p rt, (p, some rt) ∈ ovs →
          lookupKey res p = some rt ∧ rt ∈ includedRouters res) := by
  constructor
  · intro hex
    exact applyOverrides_regression ovs routers hnd hmem hpfx hex
  · intro hsub
    obtain ⟨res, hres, hlook⟩ := applyOverrides_success ovs routers hnd hmem
      (fun p rt hin => ⟨hpfx p rt hin, hsub p rt hin⟩)
    refine ⟨res, hres, fun p rt hin => ?_⟩
    have hl := hlook p (some rt) hin
    exact ⟨hl, lookup_mem_included res p rt hl⟩

/-- C1 witness: on the concrete one-router registry, the shrinking override
fails with the exact missing set and the growing override is accepted. -/
theorem override_subset_validation_witness :
    applyOverrides demoRegistry [(adminKey, some smallerAdminRouter)] =
      Except.error (OverrideError.missingPaths adminKey
        (origPaths demoRegistry adminKey \
          method_paths_from_routes smallerAdminRouter.routes)) ∧
    (applyOverrides demoRegistry
      [(adminKey, some biggerAdminRouter)]).toOption.isSome = true := by
  constructor
  · have h := (override_subset_validation demoRegistry
        [(adminKey, some smallerAdminRouter)] (by decide) (by decide)
        (by
          intro p rt hin
          simp only [List.mem_singleton, Prod.mk.injEq, Option.some.injEq] at hin
          obtain ⟨rfl, rfl⟩ := hin
          rfl)).1
      ⟨adminKey, smallerAdminRouter, by decide, by decide⟩
    obtain ⟨p', rt', hin', _, heq'⟩ := h
    simp only [List.mem_singleton, Prod.mk.injEq, Option.some.injEq] at hin'
    obtain ⟨rfl, rfl⟩ := hin'
    exact heq'
  · have h := (override_subset_validation demoRegistry
        [(adminKey, some biggerAdminRouter)] (by decide) (by decide)
        (by
          intro p rt hin
          simp only [List.mem_singleton, Prod.mk.injEq, Option.some.injEq] at hin
          obtain ⟨rfl, rfl⟩ := hin
          rfl)).2
      (by
        intro p rt hin
        simp only [List.mem_singleton, Prod.mk.injEq, Option.some.injEq] at hin
        obtain ⟨rfl, rfl⟩ := hin
        decide)
    obtain ⟨res, hres, _⟩ := h
    rw [hres]
    rfl

/-- C2: evaluating stop_services on a state holding two running services
shows the stop requests are issued to both services but no monitored task is
ever awaited: the second gather evaluates the missing attribute task.stop,
the AttributeError is discarded, and the call returns with the trace holding
only the stop requests. -/
theorem stop_services_never_awaits_tasks :
    stopServices (some [(ServiceKind.scheduler, 0), (ServiceKind.telemetry, 1)]) =
      [Event.stopRequested ServiceKind.scheduler,
       Event.stopRequested ServiceKind.telemetry] := by decide

/-- C3: a repeated build with an equal settings value, equal ephemeral flag
and ignore_cache unset returns the identical cached instance and leaves the
state untouched, while ignore_cache set always constructs a fresh instance,
overwrites the cache binding for that key, and stops no services of the
previously cached instance. -/
theorem app_cache_identity_and_force (s : Settings) (eph : Bool)
    (w : WorldState) :
    (∀ id1 w1, create_app s eph false w = (id1, w1) →
      create_app s eph false w1 = (id1, w1)) ∧
    (∀ oldId : Nat, cacheLookup w.appCache (s, eph) = some oldId →
      oldId < w.buildCount →
      (create_app s eph true w).1 = w.buildCount ∧
      (create_app s eph true w).1 ≠ oldId ∧
      cacheLookup (create_app s eph true w).2.appCache (s, eph) =
        some (create_app s eph true w).1 ∧
      (create_app s eph true w).2.stoppedServiceApps =
        w.stoppedServiceApps) := by
  constructor
  · intro id1 w1 h1
    cases hl : cacheLookup w.appCache (s, eph) with
    | some id =>
      rw [create_app_hit s eph w id hl] at h1
      injection h1 with ha hb
      rw [← ha, ← hb]
      exact create_app_hit s eph w id hl
    | none =>
      rw [create_app_build_of_none s eph false w hl] at h1
      injection h1 with ha hb
      rw [← ha, ← hb]
      apply create_app_hit
      exact cacheLookup_insert_self w.appCache (s, eph) w.buildCount
  · intro oldId hold hlt
    rw [create_app_build_of_true s eph w]
    refine ⟨rfl, ?_, ?_, rfl⟩
    · exact fun hh => absurd (hh ▸ hlt) (Nat.lt_irrefl _)
    · exact cacheLookup_insert_self w.appCache (s, eph) w.buildCount

/-- C3 witness: in a state with instance 0 cached for the key, the cached
call returns instance 0 unchanged and the forced call builds instance 1,
overwrites the binding and stops nothing. -/
theorem app_cache_identity_and_force_witness :
    create_app demoSettings false false demoWorld = (0, demoWorld) ∧
    (create_app demoSettings false true demoWorld).1 = demoWorld.buildCount ∧
    (create_app demoSettings false true demoWorld).1 ≠ 0 ∧
    cacheLookup (create_app demoSettings false true demoWorld).2.appCache
      (demoSettings, false) = some (create_app demoSettings false true demoWorld).1 ∧
    (create_app demoSettings false true demoWorld).2.stoppedServiceApps =
      demoWorld.stoppedServiceApps := by
  have h := app_cache_identity_and_force demoSettings false demoWorld
  exact ⟨h.1 0 demoWorld (by decide), h.2 0 (by decide) (by decide)⟩

/-- C4: building with the ephemeral flag set records the service set as
absent and performs no action at all whatever the four service flags say,
and the UI static application is never mounted. -/
theorem ephemeral_no_services_no_ui (flags : ServiceFlags) (env : UIEnv) :
    startServices true flags = (none, []) ∧
    createUiAppMounts env true = false := by
  constructor
  · rfl
  · simp [createUiAppMounts]

/-- C5: an override entry naming a key absent from the registry makes the
whole override application fail, and the processing of that entry itself
raises the unknown-key fault whatever value the entry carries. -/
theorem unknown_key_override_fails (routers : Registry)
    (ovs : List (String × Option APIRouter)) (p : String)
    (v : Option APIRouter) (hin : (p, v) ∈ ovs)
    (hunk : lookupKey routers p = none) :
    (∃ e, applyOverrides routers ovs = Except.error e) ∧
    applyOverride1 routers p v =
      Except.error (OverrideError.unknownKey p) := by
  constructor
  · cases hres : applyOverrides routers ovs with
    | error e => exact ⟨e, rfl⟩
    | ok res =>
      exact absurd hres (applyOverrides_unknown_not_ok ovs routers p v hin hunk res)
  · exact applyOverride1_unknown routers p v hunk

/-- C5 witness: the ghost key is absent from the concrete registry, so the
override application fails and the entry raises the unknown-key fault. -/
theorem unknown_key_override_fails_witness :
    (∃ e, applyOverrides demoRegistry [(ghostKey, none)] = Except.error e) ∧
    applyOverride1 demoRegistry ghostKey none =
      Except.error (OverrideError.unknownKey ghostKey) :=
  unknown_key_override_fails demoRegistry [(ghostKey, none)] ghostKey none
    (by decide) (by decide)

/-- C6: supplying absence for a key present in the registry always succeeds,
removes that router from the registry served by the assembled application,
and leaves every other key untouched, whatever the contents of the dropped
router. -/
theorem absence_removes_group (routers : Registry) (p : String)
    (h : (lookupKey routers p).isSome = true) :
    applyOverride1 routers p none = Except.ok (eraseKey routers p) ∧
    applyOverrides routers [(p, none)] = Except.ok (eraseKey routers p) ∧
    lookupKey (eraseKey routers p) p = none ∧
    ∀ q, q ≠ p → lookupKey (eraseKey routers p) q = lookupKey routers q := by
  obtain ⟨ex, hl⟩ := Option.isSome_iff_exists.mp h
  have h1 := applyOverride1_none_ok routers p ex hl
  refine ⟨h1, ?_, lookup_eraseKey_self routers p, ?_⟩
  · rw [applyOverrides_cons_ok routers (eraseKey routers p) p none [] h1]
    rfl
  · intro q hq
    exact lookup_eraseKey_ne routers q p hq

/-- C6 witness: dropping the concrete admin router succeeds, removes its
key, and leaves the ghost key lookup unchanged. -/
theorem absence_removes_group_witness :
    applyOverrides demoRegistry [(adminKey, none)] =
      Except.ok (eraseKey demoRegistry adminKey) ∧
    lookupKey (eraseKey demoRegistry adminKey) adminKey = none ∧
    lookupKey (eraseKey demoRegistry adminKey) ghostKey =
      lookupKey demoRegistry ghostKey := by
  have h := absence_removes_group demoRegistry adminKey (by decide)
  exact ⟨h.2.1, h.2.2.1, h.2.2.2 ghostKey (by decide)⟩

/-- C7 counterexample: in normal mode with every service flag disabled,
start_services records an empty mapping, not the absent value the claim
requires. -/
theorem no_services_handle_not_absent_cx :
    (startServices false allOffFlags).1 = some [] ∧
    (startServices false allOffFlags).1 ≠ none := by decide

/-- C7 amended: whenever no services are configured, start launches nothing
and stop short-circuits as a no-op; the handle records the absent value in
ephemeral mode but an empty mapping in normal mode with all flags disabled,
and both are falsy so the stop truthiness check short-circuits either
way. -/
theorem no_services_start_stop_noop :
    (∀ flags : ServiceFlags, startServices true flags = (none, [])) ∧
    stopServices none = [] ∧
    startServices false allOffFlags = (some [], []) ∧
    stopServices (some []) = [] := by
  refine ⟨fun flags => rfl, rfl, by decide, rfl⟩

/-- C8: each recognized fault kind is translated to its fixed status and
payload shape, with the request-shape fault carrying the field detail and
request body, the integrity conflict and the unclassified fault carrying
only their fixed generic messages with nothing of the low-level detail, and
the not-found fault passing its message through. -/
theorem fault_translation_shapes :
    (∀ errs body, handleFault (Fault.requestValidation errs body) =
      { statusCode := 422, exceptionMessage := some invalidRequestMsg,
        exceptionDetail := some errs, requestBody := some body,
        detail := none }) ∧
    (∀ d, handleFault (Fault.integrity d) =
      { statusCode := 409, exceptionMessage := none, exceptionDetail := none,
        requestBody := none, detail := some integrityConflictMsg }) ∧
    (∀ m, handleFault (Fault.objectNotFound m) =
      { statusCode := 404, exceptionMessage := some m, exceptionDetail := none,
        requestBody := none, detail := none }) ∧
    (∀ d, handleFault (Fault.other d) =
      { statusCode := 500, exceptionMessage := some internalServerErrorMsg,
        exceptionDetail := none, requestBody := none, detail := none }) :=
  ⟨fun _ _ => rfl, fun _ => rfl, fun _ => rfl, fun _ => rfl⟩

/-- C9 counterexample: swallowing the duplicate fault for the first
descriptor writes nothing to the logger, contradicting the logging half of
the claim; the trace shows the silent skip followed by the registration of
the second descriptor. -/
theorem duplicate_fault_not_logged_cx :
    (add_block_types false [{ name := nameA }, { name := nameB }] [nameA]).2 =
      [RegEvent.duplicateSwallowed nameA, RegEvent.registered nameB] ∧
    (add_block_types false [{ name := nameA }, { name := nameB }]
      [nameA]).2.any RegEvent.isLogEvent = false := by decide

/-- C9 amended: a duplicate-registration fault raised for one descriptor is
caught and discarded per item without any logging, and does not abort the
registration of the remaining descriptors: every descriptor of the list is
processed and ends up registered. -/
theorem duplicate_faults_swallowed_not_logged (blocks : List BlockDescriptor)
    (db : List String) :
    (add_block_types false blocks db).2.length = blocks.length ∧
    (∀ b ∈ blocks, b.name ∈ (add_block_types false blocks db).1) ∧
    (add_block_types false blocks db).2.any RegEvent.isLogEvent = false := by
  induction blocks generalizing db with
  | nil => exact ⟨rfl, fun b hb => absurd hb (List.not_mem_nil _), rfl⟩
  | cons b rest ih =>
    cases hc : create_block_type db false b.name with
    | ok db' =>
      rw [add_block_types_cons_ok false b rest db db' hc]
      obtain ⟨ihl, ihm, iha⟩ := ih db'
      refine ⟨by simp [ihl], ?_, by simp [RegEvent.isLogEvent, iha]⟩
      intro x hx
      rcases List.mem_cons.mp hx with rfl | htl
      · exact add_block_types_mono false rest db' x.name
          (create_block_type_self db db' false x.name hc)
      · exact ihm x htl
    | error e =>
      rw [add_block_types_cons_err false b rest db e hc]
      obtain ⟨ihl, ihm, iha⟩ := ih db
      refine ⟨by simp [ihl], ?_, by simp [RegEvent.isLogEvent, iha]⟩
      intro x hx
      rcases List.mem_cons.mp hx with rfl | htl
      · exact add_block_types_mono false rest db x.name
          (create_block_type_err_mem db x.name e hc)
      · exact ihm x htl

/-- C9 amended witness: with descriptor a already registered, both
descriptors of the list are processed and the second ends up registered. -/
theorem duplicate_faults_swallowed_not_logged_witness :
    (add_block_types false [{ name := nameA }, { name := nameB }]
      [nameA]).2.length = 2 ∧
    nameB ∈ (add_block_types false [{ name := nameA }, { name := nameB }]
      [nameA]).1 := by
  have h := duplicate_faults_swallowed_not_logged
    [{ name := nameA }, { name := nameB }] [nameA]
  exact ⟨h.1, h.2.1 { name := nameB } (by decide)⟩

/-- C10: when the caller supplies its own dependencies list, create_orion_api
appends the version checker to that very list object, the mutation is
visible through the reference the caller holds after the call returns, and a
second call through the same reference accumulates a second entry. -/
theorem dependencies_appended_in_place (s : DepStore) (r : Nat)
    (h : r < s.length) :
    (resolveDependencies (some r) s).1 = r ∧
    depRead (resolveDependencies (some r) s).2 r =
      depRead s r ++ [Dep.versionCheckerDep] ∧
    depRead (resolveDependencies (some r)
        (resolveDependencies (some r) s).2).2 r =
      depRead s r ++ [Dep.versionCheckerDep, Dep.versionCheckerDep] := by
  have h1 := depRead_set_self s r
    (s.getD r [] ++ [Dep.versionCheckerDep]) h
  have hlen : r < (s.set r (s.getD r [] ++ [Dep.versionCheckerDep])).length := by
    rw [List.length_set]
    exact h
  have h2 := depRead_set_self (s.set r (s.getD r [] ++ [Dep.versionCheckerDep])) r
    ((s.set r (s.getD r [] ++ [Dep.versionCheckerDep])).getD r []
      ++ [Dep.versionCheckerDep]) hlen
  refine ⟨rfl, h1, ?_⟩
  show depRead ((s.set r (s.getD r [] ++ [Dep.versionCheckerDep])).set r
      ((s.set r (s.getD r [] ++ [Dep.versionCheckerDep])).getD r []
        ++ [Dep.versionCheckerDep])) r =
    depRead s r ++ [Dep.versionCheckerDep, Dep.versionCheckerDep]
  rw [h2]
  show depRead (s.set r (s.getD r [] ++ [Dep.versionCheckerDep])) r
      ++ [Dep.versionCheckerDep] =
    depRead s r ++ [Dep.versionCheckerDep, Dep.versionCheckerDep]
  rw [h1]
  show (depRead s r ++ [Dep.versionCheckerDep]) ++ [Dep.versionCheckerDep] =
    depRead s r ++ [Dep.versionCheckerDep, Dep.versionCheckerDep]
  rw [List.append_assoc]
  rfl

/-- C10 witness: on the concrete heap the caller reference 0 sees first one
and then two appended version checker entries. -/
theorem dependencies_appended_in_place_witness :
    (resolveDependencies (some 0) demoStore).1 = 0 ∧
    depRead (resolveDependencies (some 0) demoStore).2 0 =
      depRead demoStore 0 ++ [Dep.versionCheckerDep] ∧
    depRead (resolveDependencies (some 0)
        (resolveDependencies (some 0) demoStore).2).2 0 =
      depRead demoStore 0 ++ [Dep.versionCheckerDep, Dep.versionCheckerDep] :=
  dependencies_appended_in_place demoStore 0 (by decide)

end Orion
